import Mathlib

/-!
# Verification of the Spotify data-analysis pipeline against its specification

Shallow embedding of the pipeline's core functions
(`src/code/my_functions_01.py`, `src/code/my_functions_02.py`):

* `chunk_list`        — batching of track-id lists (my_functions_01.py:52);
* `fetch_features`    — batched feature retrieval with its status-code
                        handling (my_functions_01.py:67);
* `read_playlist`'s region derivation (my_functions_02.py:28);
* `process_features`' deduplication by `Track_ID` (my_functions_02.py:125);
* `analyse_column_limits` — per-column profiles (my_functions_02.py:138);
* `create_table`      — DDL generation with integer-tier derivation
                        (my_functions_02.py:163).

Python strings are modelled as `List Char` (named `PyStr`), Python
numbers (ints and floats alike) as `ℚ`, and the pandas `NaN` that
`Series.min` / `Series.max` / `.map(len).max()` produce on an empty
column as `none` in an `Option` (every comparison against `NaN` is
false in Python, which `Option` pattern-matching reproduces below).
-/

/-- Python `str`, modelled as a list of characters. -/
abbrev PyStr := List Char

/-! ## `chunk_list` (my_functions_01.py lines 52-64)

```python
def chunk_list(list, n):
    for i in range(0, len(list), n):
        yield list[i : i + n]
```
-/

/-- Python `range(0, stop, step)` for a positive `step`: the indices
`0, step, 2*step, ...` below `stop`.  (Python raises `ValueError` on
`step = 0`; the definition returns `[]` there, and every theorem that
uses it assumes a positive step.) -/
def pyRange (stop step : Nat) : List Nat :=
  List.range' 0 ((stop + step - 1) / step) step

/-- Python slice `list[i : j]` for `0 ≤ i ≤ j`. -/
def pySlice (l : List α) (i j : Nat) : List α :=
  (l.drop i).take (j - i)

/-- Definition `chunk_list` from my_functions_01.py: the list of slices
`list[i : i + n]` for `i` in `range(0, len(list), n)`. -/
def chunk_list (l : List α) (n : Nat) : List (List α) :=
  (pyRange l.length n).map (fun i => pySlice l i (i + n))

theorem chunk_list_nil (n : Nat) : chunk_list ([] : List α) n = [] := by
  have h : (n - 1) / n = 0 := by
    cases n with
    | zero => rfl
    | succ k => exact Nat.div_eq_of_lt (by omega)
  simp [chunk_list, pyRange, h]

theorem chunk_list_length (l : List α) (n : Nat) :
    (chunk_list l n).length = (l.length + n - 1) / n := by
  simp [chunk_list, pyRange]

/-- Recursive characterisation of `chunk_list`: for positive `n` and
nonempty `l`, the chunks of `l` are `l.take n` followed by the chunks
of `l.drop n`. -/
theorem chunk_list_cons (l : List α) (n : Nat) (hn : 0 < n) (hl : l ≠ []) :
    chunk_list l n = l.take n :: chunk_list (l.drop n) n := by
  have hlen : 0 < l.length := List.length_pos.mpr hl
  unfold chunk_list pyRange
  have hm' : (l.length + n - 1) / n = (l.length - 1) / n + 1 := by
    have h : l.length + n - 1 = (l.length - 1) + n := by omega
    rw [h, Nat.add_div_right _ hn]
  have hm2 : ((l.drop n).length + n - 1) / n = (l.length - 1) / n := by
    rw [List.length_drop]
    rcases Nat.lt_or_ge l.length n with h | h
    · have h1 : l.length - n = 0 := by omega
      have h2 : (0 + n - 1) / n = 0 := Nat.div_eq_of_lt (by omega)
      have h3 : (l.length - 1) / n = 0 := Nat.div_eq_of_lt (by omega)
      rw [h1, h2, h3]
    · have h1 : l.length - n + n - 1 = l.length - 1 := by omega
      rw [h1]
  rw [hm', hm2, List.range'_succ]
  simp only [List.map_cons]
  congr 1
  · simp [pySlice]
  · have hshift := List.map_add_range' n 0 ((l.length - 1) / n) n
    simp only [Nat.add_zero] at hshift
    rw [Nat.zero_add, ← hshift, List.map_map]
    apply List.map_congr_left
    intro i _
    simp only [Function.comp_apply, pySlice, List.drop_drop]
    congr 1
    omega

theorem chunk_list_flatten_aux (n : Nat) (hn : 0 < n) :
    ∀ (fuel : Nat) (l : List α), l.length ≤ fuel → (chunk_list l n).flatten = l := by
  intro fuel
  induction fuel with
  | zero =>
    intro l hl
    have h0 : l = [] := List.eq_nil_of_length_eq_zero (by omega)
    subst h0
    simp [chunk_list_nil]
  | succ fuel ih =>
    intro l hl
    rcases eq_or_ne l [] with rfl | hne
    · simp [chunk_list_nil]
    · rw [chunk_list_cons l n hn hne, List.flatten_cons,
        ih (l.drop n) (by simp; have := List.length_pos.mpr hne; omega)]
      exact List.take_append_drop n l

theorem chunk_list_flatten (n : Nat) (hn : 0 < n) (l : List α) :
    (chunk_list l n).flatten = l :=
  chunk_list_flatten_aux n hn l.length l le_rfl

theorem chunk_list_sizes_aux (n : Nat) (hn : 0 < n) :
    ∀ (fuel : Nat) (l : List α), l.length ≤ fuel →
      ∀ c ∈ chunk_list l n, c.length ≤ n := by
  intro fuel
  induction fuel with
  | zero =>
    intro l hl
    have h0 : l = [] := List.eq_nil_of_length_eq_zero (by omega)
    subst h0
    simp [chunk_list_nil]
  | succ fuel ih =>
    intro l hl
    rcases eq_or_ne l [] with rfl | hne
    · simp [chunk_list_nil]
    · rw [chunk_list_cons l n hn hne]
      intro c hc
      rcases List.mem_cons.mp hc with rfl | hc
      · simp
      · exact ih (l.drop n) (by simp; have := List.length_pos.mpr hne; omega) c hc

theorem chunk_list_sizes (n : Nat) (hn : 0 < n) (l : List α) :
    ∀ c ∈ chunk_list l n, c.length ≤ n :=
  chunk_list_sizes_aux n hn l.length l le_rfl

theorem chunk_list_ne_nil (l : List α) (n : Nat) (hn : 0 < n) (hl : l ≠ []) :
    chunk_list l n ≠ [] := by
  rw [chunk_list_cons l n hn hl]
  exact List.cons_ne_nil _ _

theorem chunk_list_full_sizes_aux (n : Nat) (hn : 0 < n) :
    ∀ (fuel : Nat) (l : List α), l.length ≤ fuel →
      ∀ c ∈ (chunk_list l n).dropLast, c.length = n := by
  intro fuel
  induction fuel with
  | zero =>
    intro l hl
    have h0 : l = [] := List.eq_nil_of_length_eq_zero (by omega)
    subst h0
    simp [chunk_list_nil]
  | succ fuel ih =>
    intro l hl
    rcases eq_or_ne l [] with rfl | hne
    · simp [chunk_list_nil]
    · rw [chunk_list_cons l n hn hne]
      rcases eq_or_ne (l.drop n) [] with hdrop | hdrop
      · rw [hdrop, chunk_list_nil]
        simp
      · have hrest : chunk_list (l.drop n) n ≠ [] := chunk_list_ne_nil _ n hn hdrop
        rw [List.dropLast_cons_of_ne_nil hrest]
        intro c hc
        rcases List.mem_cons.mp hc with rfl | hc
        · have hlt : n < l.length := by
            by_contra hcon
            exact hdrop (List.drop_eq_nil_of_le (by omega))
          simp [List.length_take, Nat.min_eq_left (Nat.le_of_lt hlt)]
        · exact ih (l.drop n) (by simp; have := List.length_pos.mpr hne; omega) c hc

theorem chunk_list_full_sizes (n : Nat) (hn : 0 < n) (l : List α) :
    ∀ c ∈ (chunk_list l n).dropLast, c.length = n :=
  chunk_list_full_sizes_aux n hn l.length l le_rfl

/-- C2: for every finite list and positive `n`, `chunk_list` produces
exactly `⌈|S|/n⌉` contiguous groups (written `(|S| + n - 1) / n` in
natural-number arithmetic), each of size `n` except possibly the last
(which may be shorter), and concatenating the groups in order yields
the list unchanged. -/
theorem chunk_list_spec (l : List α) (n : Nat) (hn : 0 < n) :
    (chunk_list l n).length = (l.length + n - 1) / n ∧
    (∀ c ∈ (chunk_list l n).dropLast, c.length = n) ∧
    (∀ c ∈ chunk_list l n, c.length ≤ n) ∧
    (chunk_list l n).flatten = l :=
  ⟨chunk_list_length l n, chunk_list_full_sizes n hn l,
    chunk_list_sizes n hn l, chunk_list_flatten n hn l⟩

/-- Witness for C2 at `l = [1,2,3,4,5]`, `n = 2`. -/
theorem chunk_list_spec_witness :
    0 < 2 ∧
      ((chunk_list [1, 2, 3, 4, 5] 2).length = (5 + 2 - 1) / 2 ∧
        (∀ c ∈ (chunk_list [1, 2, 3, 4, 5] 2).dropLast, c.length = 2) ∧
        (∀ c ∈ chunk_list [1, 2, 3, 4, 5] 2, c.length ≤ 2) ∧
        (chunk_list [1, 2, 3, 4, 5] 2).flatten = [1, 2, 3, 4, 5]) :=
  ⟨by decide, chunk_list_spec [1, 2, 3, 4, 5] 2 (by decide)⟩

/-! ## `fetch_features` (my_functions_01.py lines 67-101)

```python
def fetch_features(track_id, token):
    url = f"https://api.spotify.com/v1/audio-features"
    headers = ...  # bearer-token header
    features_list = []
    for batch in chunk_list(track_id, 20):
        params = ...  # ids = comma-joined batch
        response = requests.get(url, headers=headers, params=params)
        if response.status_code == 200:
            features_batch = response.json().get("audio_features", [])
            features_list.extend(features_batch)
        elif response.status_code == 429:
            retry_after = int(response.headers.get("Retry-After", 1))
            print(f"Rate limited. Retrying after {retry_after} seconds...")
            time.sleep(retry_after)
        else:
            print(f"Failed to fetch track {track_id}. Status code: ...")
            print("Response:", response.text)
    return features_list
```

The network is modelled by an oracle: the list of HTTP responses the
server produces, consumed one per `requests.get` call, in order.  The
source issues exactly one GET per batch of 20 ids — note that in the
429 branch the code sleeps and then falls through to the next loop
iteration; there is no construct that re-issues the request for the
same batch.  Side effects (the `time.sleep` and the `print` calls of
the non-200 branches) are returned as an event trace. -/

/-- One parsed audio-feature entry (`audio_features` array element);
only the track id is interpreted by the pipeline's claims. -/
structure Feature where
  id : PyStr
deriving DecidableEq

/-- One HTTP response of the feature endpoint, as the source reads it:
status code, optional parsed `Retry-After` header, the
`audio_features` array of the JSON body (empty unless the status is
200), and the raw body text. -/
structure HttpResponse where
  status : Nat
  retryAfter : Option Nat
  audioFeatures : List Feature
  body : PyStr
deriving DecidableEq

/-- Observable side effects of `fetch_features`: the blocking
`time.sleep` of the 429 branch, and the status/body log of the other
non-success branch. -/
inductive FetchEvent where
  | slept (seconds : Nat)
  | logged (status : Nat) (body : PyStr)
deriving DecidableEq

/-- The `for batch in chunk_list(track_id, 20)` loop body: one GET per
batch, consuming the next oracle response; 200 extends the result,
429 sleeps `Retry-After` (default 1) and moves on, anything else logs
status and body and moves on. -/
def fetch_features_go :
    List (List PyStr) → List HttpResponse → List Feature × List FetchEvent
  | [], _ => ([], [])
  | _ :: _, [] => ([], [])
  | _batch :: batches, r :: rs =>
    let rest := fetch_features_go batches rs
    if r.status = 200 then
      (r.audioFeatures ++ rest.1, rest.2)
    else if r.status = 429 then
      (rest.1, .slept (r.retryAfter.getD 1) :: rest.2)
    else
      (rest.1, .logged r.status r.body :: rest.2)

/-- Definition `fetch_features` from my_functions_01.py, relative to a response
oracle supplying one response per issued request. -/
def fetch_features (track_id : List PyStr) (responses : List HttpResponse) :
    List Feature × List FetchEvent :=
  fetch_features_go (chunk_list track_id 20) responses

/-- Oracle for the C1 end-to-end scenario: the first request for the
batch `a,b,c` is answered 429 with `Retry-After: 0`; a second request
for that batch would succeed with all three feature entries. -/
def c1Responses : List HttpResponse :=
  [{ status := 429, retryAfter := some 0, audioFeatures := [], body := [] },
   { status := 200, retryAfter := none,
     audioFeatures := [⟨"a".data⟩, ⟨"b".data⟩, ⟨"c".data⟩], body := [] }]

/-- C1: evaluation of the code at the claim's scenario.  For the batch
`a,b,c` answered 429 once (Retry-After = 0) and then 200, the source
sleeps 0 seconds and returns the empty feature list: the 429 branch
never re-issues the request, so the second (successful) response is
never consumed and all three ids are dropped — contradicting the
claimed retry of the same batch that would yield entries for all 3
ids. -/
theorem fetch_features_429_drops_batch :
    fetch_features ["a".data, "b".data, "c".data] c1Responses
      = ([], [.slept 0]) := by
  decide

/-- C9: for every id list and response oracle, `fetch_features`
consumes exactly one response per batch and never raises: each batch
answered 200 contributes exactly its `audio_features` entries, in
batch order, and every other batch contributes nothing — a batch
answered with a non-200, non-429 status only logs its status and body
(no sleep, no retry), and the remaining batches are still processed.
The caller receives the concatenated entries of the successful batches
only. -/
theorem fetch_features_skips_failed_batches
    (ids : List PyStr) (rs : List HttpResponse) :
    (fetch_features ids rs).1
        = (List.zipWith
            (fun (_b : List PyStr) (r : HttpResponse) =>
              if r.status = 200 then r.audioFeatures else [])
            (chunk_list ids 20) rs).flatten ∧
    (fetch_features ids rs).2
        = (List.zipWith
            (fun (_b : List PyStr) (r : HttpResponse) =>
              if r.status = 200 then ([] : List FetchEvent)
              else if r.status = 429 then [.slept (r.retryAfter.getD 1)]
              else [.logged r.status r.body])
            (chunk_list ids 20) rs).flatten := by
  unfold fetch_features
  generalize chunk_list ids 20 = batches
  induction batches generalizing rs with
  | nil => simp [fetch_features_go]
  | cons b bs ih =>
    cases rs with
    | nil => simp [fetch_features_go]
    | cons r rs =>
      have h := ih rs
      simp only [fetch_features_go, List.zipWith_cons_cons, List.flatten_cons]
      rcases Nat.decEq r.status 200 with h200 | h200
      · simp only [if_neg h200]
        rcases Nat.decEq r.status 429 with h429 | h429
        · simp only [if_neg h429, h.1, h.2]
          simp
        · simp only [if_pos h429, h.1, h.2]
          simp
      · simp only [if_pos h200, h.1, h.2]
        simp

/-! ## Region derivation in `read_playlist` (my_functions_02.py lines 18-32)

```python
    file_name = Path(file_path).stem
    file_name = file_name.replace("_tracks", "").replace("_features", "")
    df["Playlist"] = file_name
    regions = ["UK", "USA", "Singapore"]
    region = [region for region in regions if region in file_name]
    df["Region"] = region[0] if region else "Global"
```

The function below takes the filename stem (the source-file label,
`Path(file_path).stem`) as input; the two `replace` calls and the
substring search are embedded directly. -/

/-- Python `haystack.startswith(needle)` on character lists. -/
def startsWithSeq : List Char → List Char → Bool
  | _, [] => true
  | [], _ :: _ => false
  | a :: as, b :: bs => a == b && startsWithSeq as bs

/-- Python substring membership `needle in haystack` on character
lists. -/
def containsSeq : List Char → List Char → Bool
  | [], needle => needle.isEmpty
  | hd :: rest, needle => startsWithSeq (hd :: rest) needle || containsSeq rest needle

/-- Left-to-right scan deleting every (left-most, non-overlapping)
occurrence of a nonempty `pat`.  The scan consumes at least one
character per step, so `fuel = length of the string` suffices; fuel is
used only to make the recursion structural. -/
def pyReplaceDelGo (pat : PyStr) : Nat → PyStr → PyStr
  | 0, _ => []
  | _ + 1, [] => []
  | fuel + 1, c :: rest =>
    if startsWithSeq (c :: rest) pat then
      pyReplaceDelGo pat fuel (rest.drop (pat.length - 1))
    else
      c :: pyReplaceDelGo pat fuel rest

/-- Python `s.replace(pat, "")` for a nonempty pattern. -/
def pyReplaceDel (pat s : PyStr) : PyStr :=
  pyReplaceDelGo pat s.length s

/-- The fixed region list of my_functions_02.py line 28. -/
def regions : List PyStr := ["UK".data, "USA".data, "Singapore".data]

/-- Lines 29-30: the first region whose name occurs in `file_name`,
else `"Global"` (`region[0] if region else "Global"` over the list
comprehension). -/
def deriveRegion (file_name : PyStr) : PyStr :=
  match regions.filter (fun r => containsSeq file_name r) with
  | [] => "Global".data
  | r :: _ => r

/-- Lines 21-30 of `read_playlist` applied to a filename stem: strip
`"_tracks"` and `"_features"`, then derive the region. -/
def read_playlist_region (stem : PyStr) : PyStr :=
  deriveRegion (pyReplaceDel "_features".data (pyReplaceDel "_tracks".data stem))

/-- C7: for every source-file identifier, the derived region is the
first element of the fixed list `[UK, USA, Singapore]` that occurs as
a substring of the identifier (`List.find?` returns the first match),
and `Global` when none occurs; in particular the label
`"UK_top50_tracks"` yields `"UK"` and `"global_viral50_features"`
yields `"Global"`. -/
theorem region_derivation_spec :
    (∀ name : PyStr,
        deriveRegion name
          = (regions.find? (fun r => containsSeq name r)).getD "Global".data) ∧
    read_playlist_region "UK_top50_tracks".data = "UK".data ∧
    read_playlist_region "global_viral50_features".data = "Global".data := by
  refine ⟨fun name => ?_, by decide, by decide⟩
  rw [deriveRegion, ← List.filter_head?]
  cases regions.filter (fun r => containsSeq name r) with
  | nil => rfl
  | cons r rest => rfl

/-! ## Deduplication in `process_features` (my_functions_02.py lines 99-135)

```python
    df = df.drop_duplicates(subset="Track_ID")
```

`process_features` selects and renames the six feature columns and then
drops duplicate rows by `Track_ID`; pandas `drop_duplicates` keeps the
first occurrence (its default `keep="first"`).  A row of the renamed
frame is a `FeatureRecord`; the scan below keeps a row exactly when its
`Track_ID` has not been seen earlier. -/

/-- One row of the renamed feature frame. -/
structure FeatureRecord where
  track_id : PyStr
  energy : ℚ
  tempo : ℚ
  danceability : ℚ
  mode : ℚ
  acousticness : ℚ
deriving DecidableEq

/-- Scan implementing `drop_duplicates` by `Track_ID`: `seen` holds the
`Track_ID`s of rows already kept. -/
def dropDupByTrackIdGo (seen : List PyStr) :
    List FeatureRecord → List FeatureRecord
  | [] => []
  | r :: rest =>
    if r.track_id ∈ seen then dropDupByTrackIdGo seen rest
    else r :: dropDupByTrackIdGo (r.track_id :: seen) rest

/-- Embedding of the `df.drop_duplicates` call of my_functions_02.py
line 125 (pandas default `keep="first"`). -/
def drop_duplicates (df : List FeatureRecord) : List FeatureRecord :=
  dropDupByTrackIdGo [] df

theorem dropDupGo_sublist (seen : List PyStr) (l : List FeatureRecord) :
    List.Sublist (dropDupByTrackIdGo seen l) l := by
  induction l generalizing seen with
  | nil => simp [dropDupByTrackIdGo]
  | cons r rest ih =>
    rw [dropDupByTrackIdGo]
    by_cases h : r.track_id ∈ seen
    · rw [if_pos h]
      exact (ih seen).cons r
    · rw [if_neg h]
      exact (ih (r.track_id :: seen)).cons₂ r

theorem dropDupGo_not_seen (seen : List PyStr) (l : List FeatureRecord) :
    ∀ r ∈ dropDupByTrackIdGo seen l, r.track_id ∉ seen := by
  induction l generalizing seen with
  | nil => simp [dropDupByTrackIdGo]
  | cons a rest ih =>
    rw [dropDupByTrackIdGo]
    by_cases h : a.track_id ∈ seen
    · rw [if_pos h]
      exact ih seen
    · rw [if_neg h]
      intro r hr
      rcases List.mem_cons.mp hr with rfl | hr
      · exact h
      · have := ih (a.track_id :: seen) r hr
        intro hcon
        exact this (List.mem_cons_of_mem _ hcon)

theorem dropDupGo_nodup (seen : List PyStr) (l : List FeatureRecord) :
    ((dropDupByTrackIdGo seen l).map FeatureRecord.track_id).Nodup := by
  induction l generalizing seen with
  | nil => simp [dropDupByTrackIdGo]
  | cons a rest ih =>
    rw [dropDupByTrackIdGo]
    by_cases h : a.track_id ∈ seen
    · rw [if_pos h]
      exact ih seen
    · rw [if_neg h]
      simp only [List.map_cons, List.nodup_cons]
      constructor
      · intro hcon
        rcases List.mem_map.mp hcon with ⟨r, hr, hid⟩
        have := dropDupGo_not_seen (a.track_id :: seen) rest r hr
        exact this (by rw [hid]; exact List.mem_cons_self _ _)
      · exact ih (a.track_id :: seen)

theorem dropDupGo_find? (l : List FeatureRecord) :
    ∀ (seen : List PyStr) (s : PyStr), s ∉ seen →
      (dropDupByTrackIdGo seen l).find? (fun r => r.track_id == s)
        = l.find? (fun r => r.track_id == s) := by
  induction l with
  | nil => intro seen s _; rfl
  | cons a rest ih =>
    intro seen s hs
    rw [dropDupByTrackIdGo]
    by_cases h : a.track_id ∈ seen
    · rw [if_pos h]
      have hne : (a.track_id == s) = false := by
        simp only [beq_eq_false_iff_ne]
        intro hcon
        exact hs (hcon ▸ h)
      rw [List.find?_cons_of_neg _ (by simp [hne]), ih seen s hs]
    · rw [if_neg h]
      by_cases heq : a.track_id = s
      · rw [List.find?_cons_of_pos _ (by simp [heq]),
          List.find?_cons_of_pos _ (by simp [heq])]
      · rw [List.find?_cons_of_neg _ (by simp [heq]),
          List.find?_cons_of_neg _ (by simp [heq])]
        exact ih (a.track_id :: seen) s (by
          intro hcon
          rcases List.mem_cons.mp hcon with h1 | h1
          · exact heq h1.symm
          · exact hs h1)

theorem dropDupGo_fixed (seen : List PyStr) (l : List FeatureRecord)
    (hseen : ∀ r ∈ l, r.track_id ∉ seen)
    (hnodup : (l.map FeatureRecord.track_id).Nodup) :
    dropDupByTrackIdGo seen l = l := by
  induction l generalizing seen with
  | nil => rfl
  | cons a rest ih =>
    rw [dropDupByTrackIdGo, if_neg (hseen a (List.mem_cons_self _ _))]
    congr 1
    simp only [List.map_cons, List.nodup_cons] at hnodup
    apply ih
    · intro r hr
      intro hcon
      rcases List.mem_cons.mp hcon with h1 | h1
      · exact hnodup.1 (List.mem_map.mpr ⟨r, hr, h1⟩)
      · exact hseen r (List.mem_cons_of_mem _ hr) h1
    · exact hnodup.2

/-- C6: deduplication of feature records by `Track_ID` keeps the first
occurrence of each id and drops later ones — the output is a sublist
of the input in input order, its `Track_ID`s are pairwise distinct,
and for every id the (unique) record kept for it is exactly the first
record of the input carrying that id; applying the deduplication twice
yields the same result as applying it once. -/
theorem drop_duplicates_spec (l : List FeatureRecord) :
    ((drop_duplicates l).map FeatureRecord.track_id).Nodup ∧
    List.Sublist (drop_duplicates l) l ∧
    (∀ s : PyStr,
        (drop_duplicates l).find? (fun r => r.track_id == s)
          = l.find? (fun r => r.track_id == s)) ∧
    drop_duplicates (drop_duplicates l) = drop_duplicates l := by
  refine ⟨dropDupGo_nodup [] l, dropDupGo_sublist [] l,
    fun s => dropDupGo_find? l [] s (List.not_mem_nil s), ?_⟩
  exact dropDupGo_fixed [] (dropDupByTrackIdGo [] l)
    (fun r _ => List.not_mem_nil _) (dropDupGo_nodup [] l)

/-! ## `analyse_column_limits` (my_functions_02.py lines 138-160)

```python
    column_analysis = dict()
    for col in df.columns:
        col_data = df[col]
        if col_data.dtype == "object":  # Strings
            max_length = col_data.astype(str).map(len).max()
            column_analysis[col] = string profile with max_length
        elif pd.api.types.is_numeric_dtype(col_data):  # Numeric
            min_val, max_val = col_data.min(), col_data.max()
            column_analysis[col] = numeric profile with min_val, max_val
    return column_analysis
```

A DataFrame is modelled as its ordered list of columns, each carrying
a name, a pandas dtype and its cell values; the dict built in column
order is an association list. -/

/-- The pandas dtypes the pipeline's frames can carry. -/
inductive DType where
  | object
  | int64
  | float64
  | bool
  | datetime64
deriving DecidableEq

/-- One cell value.  `num` covers Python ints and floats (both are
`ℚ` here); `boolean` a Python/numpy bool; `datetime` a timestamp. -/
inductive Cell where
  | str (s : PyStr)
  | num (q : ℚ)
  | boolean (b : Bool)
  | datetime (ticks : ℤ)
deriving DecidableEq

/-- One DataFrame column: its name, dtype and cells. -/
structure Column where
  name : PyStr
  dtype : DType
  cells : List Cell
deriving DecidableEq

/-- Model of `pd.api.types.is_numeric_dtype`: int, float and bool dtypes are
numeric in pandas; object and datetime64 are not. -/
def is_numeric_dtype : DType → Bool
  | .int64 | .float64 | .bool => true
  | .object | .datetime64 => false

/-- Python `str()` of a cell, as `col_data.astype(str)` applies it
(`str(True) = "True"`, `str(False) = "False"`; the numeric and
datetime decimal spellings stand in for Python's and are only ever
used for their lengths). -/
def pyStrOfCell : Cell → PyStr
  | .str s => s
  | .num q => (toString q).data
  | .boolean b => if b then "True".data else "False".data
  | .datetime t => (toString t).data

/-- Model of `col_data.astype(str).map(len).max()`; `none` models the `NaN`
pandas returns on an empty column. -/
def maxStrLength (cells : List Cell) : Option Nat :=
  (cells.map (fun c => (pyStrOfCell c).length)).max?

/-- The numeric value pandas reads from a cell of a numeric-dtype
column (Python `bool` is an `int` subclass: `True` counts as 1,
`False` as 0); `none` for a non-numeric cell, which the NaN-skipping
`min`/`max` (default `skipna=True`) ignore. -/
def cellNum : Cell → Option ℚ
  | .num q => some q
  | .boolean b => some (if b then 1 else 0)
  | .str _ => none
  | .datetime _ => none

/-- Model of `col_data.min()`; `none` models the `NaN` returned on an empty
column. -/
def colMin (cells : List Cell) : Option ℚ :=
  (cells.filterMap cellNum).min?

/-- Model of `col_data.max()`; `none` models the `NaN` returned on an empty
column. -/
def colMax (cells : List Cell) : Option ℚ :=
  (cells.filterMap cellNum).max?

/-- One value of the `column_analysis` dict: a string profile with its
`max_length` or a numeric profile with its `min` and `max`. -/
inductive ColLimit where
  | str (max_length : Option Nat)
  | numeric (min max : Option ℚ)
deriving DecidableEq

/-- Definition `analyse_column_limits` from my_functions_02.py: object-dtype
columns are profiled as strings, numeric-dtype columns by their
min/max, and every other column contributes no entry. -/
def analyse_column_limits (df : List Column) : List (PyStr × ColLimit) :=
  df.filterMap fun col =>
    if col.dtype = .object then
      some (col.name, .str (maxStrLength col.cells))
    else if is_numeric_dtype col.dtype then
      some (col.name, .numeric (colMin col.cells) (colMax col.cells))
    else
      none

theorem min?_all_eq (q : ℚ) (l : List ℚ) (hne : l ≠ [])
    (hall : ∀ x ∈ l, x = q) : l.min? = some q := by
  induction l with
  | nil => exact absurd rfl hne
  | cons x rest ih =>
    have hx : x = q := hall x (List.mem_cons_self _ _)
    subst hx
    cases rest with
    | nil => rfl
    | cons y t =>
      rw [List.min?_cons, ih (List.cons_ne_nil y t)
        (fun z hz => hall z (List.mem_cons_of_mem _ hz))]
      simp

theorem max?_all_eq (q : ℚ) (l : List ℚ) (hne : l ≠ [])
    (hall : ∀ x ∈ l, x = q) : l.max? = some q := by
  induction l with
  | nil => exact absurd rfl hne
  | cons x rest ih =>
    have hx : x = q := hall x (List.mem_cons_self _ _)
    subst hx
    cases rest with
    | nil => rfl
    | cons y t =>
      rw [List.max?_cons, ih (List.cons_ne_nil y t)
        (fun z hz => hall z (List.mem_cons_of_mem _ hz))]
      simp

theorem filterMap_cellNum_all_eq (q : ℚ) :
    ∀ (cells : List Cell), (∀ c ∈ cells, c = Cell.num q) →
      cells.filterMap cellNum = cells.map (fun _ => q) := by
  intro cells
  induction cells with
  | nil => intro _; rfl
  | cons c rest ih =>
    intro hall
    have hc : c = Cell.num q := hall c (List.mem_cons_self _ _)
    subst hc
    simp only [List.filterMap_cons, cellNum, List.map_cons]
    rw [ih (fun z hz => hall z (List.mem_cons_of_mem _ hz))]

/-- C8: on a numeric (float) column whose cells are all the same value
the profile has `min = max`; on an empty column the function does not
crash but records the no-data profile `numeric none none`
(min = max = NaN), which no column with data ever produces. -/
theorem analyse_column_limits_allequal_empty
    (name : PyStr) (q : ℚ) (cells : List Cell)
    (hne : cells ≠ []) (hall : ∀ c ∈ cells, c = Cell.num q) :
    analyse_column_limits [⟨name, .float64, cells⟩]
        = [(name, .numeric (some q) (some q))] ∧
    analyse_column_limits [⟨name, .float64, []⟩]
        = [(name, .numeric none none)] ∧
    (∀ q1 q2 : ℚ, ColLimit.numeric none none ≠ .numeric (some q1) (some q2)) := by
  refine ⟨?_, by simp [analyse_column_limits, colMin, colMax, is_numeric_dtype], by simp⟩
  have hnum : cells.filterMap cellNum = cells.map (fun _ => q) :=
    filterMap_cellNum_all_eq q cells hall
  have hmapne : cells.map (fun _ => q) ≠ [] := by
    intro hcon
    exact hne (List.map_eq_nil_iff.mp hcon)
  have hmin : colMin cells = some q := by
    rw [colMin, hnum]
    apply min?_all_eq q _ hmapne
    intro x hx
    rcases List.mem_map.mp hx with ⟨a, _, ha⟩
    exact ha.symm
  have hmax : colMax cells = some q := by
    rw [colMax, hnum]
    apply max?_all_eq q _ hmapne
    intro x hx
    rcases List.mem_map.mp hx with ⟨a, _, ha⟩
    exact ha.symm
  simp [analyse_column_limits, is_numeric_dtype, hmin, hmax]

/-- Witness for C8 at a one-column frame of three equal cells. -/
theorem analyse_column_limits_allequal_empty_witness :
    [Cell.num 7, Cell.num 7, Cell.num 7] ≠ [] ∧
      (analyse_column_limits
          [⟨"Energy".data, .float64, [Cell.num 7, Cell.num 7, Cell.num 7]⟩]
          = [("Energy".data, .numeric (some 7) (some 7))] ∧
        analyse_column_limits [⟨"Energy".data, .float64, []⟩]
          = [("Energy".data, .numeric none none)] ∧
        (∀ q1 q2 : ℚ, ColLimit.numeric none none ≠ .numeric (some q1) (some q2))) :=
  ⟨by decide,
    analyse_column_limits_allequal_empty "Energy".data 7
      [Cell.num 7, Cell.num 7, Cell.num 7] (by decide) (by decide)⟩

/-- C10 counterexample: boolean columns are NOT silently absent from
the `analyse_column_limits` mapping.  An object-dtype column holding
Python booleans is profiled as a string column (via `astype(str)`,
with `max_length = 5` from `"False"`), and a bool-dtype column counts
as numeric for `pd.api.types.is_numeric_dtype` and is profiled with
`min = 0`, `max = 1`.  Only a dtype that is neither object nor
numeric — e.g. datetime64 — is absent. -/
theorem analyse_column_limits_boolean_present :
    analyse_column_limits
        [⟨"Flag".data, .object, [.boolean true, .boolean false]⟩,
         ⟨"Explicit".data, .bool, [.boolean true, .boolean false]⟩]
      = [("Flag".data, .str (some 5)),
         ("Explicit".data, .numeric (some 0) (some 1))] ∧
    ("Flag".data, ColLimit.str (some 5)) ∈
      analyse_column_limits
        [⟨"Flag".data, .object, [.boolean true, .boolean false]⟩,
         ⟨"Explicit".data, .bool, [.boolean true, .boolean false]⟩] ∧
    analyse_column_limits [⟨"Added".data, .datetime64, [.datetime 0]⟩] = [] := by
  refine ⟨by decide, by decide, by decide⟩

theorem analyse_keys (df : List Column) :
    (analyse_column_limits df).map Prod.fst
      = (df.filter
          (fun c => c.dtype == DType.object || is_numeric_dtype c.dtype)).map
          Column.name := by
  induction df with
  | nil => rfl
  | cons col rest ih =>
    cases hdt : col.dtype <;>
      simp [analyse_column_limits, List.filterMap_cons, List.filter_cons, hdt,
        is_numeric_dtype, ih, analyse_column_limits] <;>
      simpa [analyse_column_limits] using ih

/-- C10 (amended): the mapping contains only string profiles (for
object-dtype columns, whatever their cell values — booleans included)
and numeric profiles (for numeric dtypes, where pandas counts bool as
numeric); a column of any dtype that is neither — e.g. datetime64 —
is silently absent; and no column receives two profiles (the mapping
keys are pairwise distinct). -/
theorem analyse_column_limits_profiles (df : List Column)
    (hnames : (df.map Column.name).Nodup) :
    (∀ p ∈ analyse_column_limits df,
        ∃ col ∈ df, col.name = p.1 ∧
          ((col.dtype = .object ∧ ∃ m, p.2 = ColLimit.str m) ∨
            (is_numeric_dtype col.dtype = true ∧
              ∃ a b, p.2 = ColLimit.numeric a b))) ∧
    (∀ col ∈ df, col.dtype = .datetime64 →
        ∀ q, (col.name, q) ∉ analyse_column_limits df) ∧
    ((analyse_column_limits df).map Prod.fst).Nodup := by
  refine ⟨?_, ?_, ?_⟩
  · intro p hp
    rcases List.mem_filterMap.mp hp with ⟨col, hcol, hf⟩
    refine ⟨col, hcol, ?_⟩
    by_cases h1 : col.dtype = DType.object
    · rw [if_pos h1] at hf
      injection hf with hf
      exact ⟨congrArg Prod.fst hf, Or.inl ⟨h1, _, (congrArg Prod.snd hf).symm⟩⟩
    · rw [if_neg h1] at hf
      by_cases h2 : is_numeric_dtype col.dtype = true
      · rw [if_pos h2] at hf
        injection hf with hf
        exact ⟨congrArg Prod.fst hf, Or.inr ⟨h2, _, _, (congrArg Prod.snd hf).symm⟩⟩
      · rw [if_neg h2] at hf
        exact absurd hf (by simp)
  · intro col hcol hdt q hmem
    rcases List.mem_filterMap.mp hmem with ⟨col', hcol', hf⟩
    have hname : col'.name = col.name := by
      by_cases h1 : col'.dtype = DType.object
      · rw [if_pos h1] at hf
        injection hf with hf
        exact congrArg Prod.fst hf
      · rw [if_neg h1] at hf
        by_cases h2 : is_numeric_dtype col'.dtype = true
        · rw [if_pos h2] at hf
          injection hf with hf
          exact congrArg Prod.fst hf
        · rw [if_neg h2] at hf
          exact absurd hf (by simp)
    have hcc : col' = col :=
      List.inj_on_of_nodup_map hnames hcol' hcol hname
    subst hcc
    rw [hdt] at hf
    rw [if_neg (by simp), if_neg (by simp [is_numeric_dtype])] at hf
    exact absurd hf (by simp)
  · rw [analyse_keys]
    exact hnames.sublist ((List.filter_sublist df).map Column.name)

/-- Witness for C10's amended theorem at a two-column frame. -/
theorem analyse_column_limits_profiles_witness :
    (([⟨"Track_ID".data, DType.object, [Cell.str "a".data]⟩,
        ⟨"Popularity".data, DType.int64, [Cell.num 5]⟩] :
          List Column).map Column.name).Nodup ∧
      ((∀ p ∈ analyse_column_limits
            [⟨"Track_ID".data, DType.object, [Cell.str "a".data]⟩,
             ⟨"Popularity".data, DType.int64, [Cell.num 5]⟩],
          ∃ col ∈ ([⟨"Track_ID".data, DType.object, [Cell.str "a".data]⟩,
              ⟨"Popularity".data, DType.int64, [Cell.num 5]⟩] : List Column),
            col.name = p.1 ∧
              ((col.dtype = .object ∧ ∃ m, p.2 = ColLimit.str m) ∨
                (is_numeric_dtype col.dtype = true ∧
                  ∃ a b, p.2 = ColLimit.numeric a b))) ∧
        (∀ col ∈ ([⟨"Track_ID".data, DType.object, [Cell.str "a".data]⟩,
            ⟨"Popularity".data, DType.int64, [Cell.num 5]⟩] : List Column),
          col.dtype = .datetime64 →
            ∀ q, (col.name, q) ∉ analyse_column_limits
              [⟨"Track_ID".data, DType.object, [Cell.str "a".data]⟩,
               ⟨"Popularity".data, DType.int64, [Cell.num 5]⟩]) ∧
        ((analyse_column_limits
            [⟨"Track_ID".data, DType.object, [Cell.str "a".data]⟩,
             ⟨"Popularity".data, DType.int64, [Cell.num 5]⟩]).map Prod.fst).Nodup) :=
  ⟨by decide,
    analyse_column_limits_profiles
      [⟨"Track_ID".data, DType.object, [Cell.str "a".data]⟩,
       ⟨"Popularity".data, DType.int64, [Cell.num 5]⟩] (by decide)⟩

/-! ## `create_table` (my_functions_02.py lines 163-213)

```python
    sql_parts = [f"CREATE TABLE IF NOT EXISTS {table_name} ("]
    sql_parts.append("    Track_ID VARCHAR(50) PRIMARY KEY,")
    for col, limits in col_limit.items():
        if col in ["Track_ID"]:
            continue
        if limits["type"] == "string":
            length = limits["max_length"] + 5  # Add buffer
            sql_type = f"VARCHAR({length})" if length <= 255 else "TEXT"
        elif limits["type"] == "numeric":
            min_val, max_val = limits["min"], limits["max"]
            if -128 <= min_val and max_val <= 127:
                sql_type = "TINYINT"
            elif -32768 <= min_val and max_val <= 32767:
                sql_type = "SMALLINT"
            elif -2147483648 <= min_val and max_val <= 2147483647:
                sql_type = "INT"
            else:
                sql_type = "BIGINT"
        sql_parts.append(f"    {col} {sql_type},")
    if foreign_key is None:
        sql_parts[-1] = sql_parts[-1].rstrip(",")
    else:
        sql_parts.append(f"    FOREIGN KEY ({foreign_key[...]}) ...")
    sql_parts.append(");")
    return "\n".join(sql_parts)
```
-/

/-- Lines 193-200: the integer-tier chain for concrete numeric
bounds. -/
def numericTierVals (min_val max_val : ℚ) : PyStr :=
  if -128 ≤ min_val ∧ max_val ≤ 127 then "TINYINT".data
  else if -32768 ≤ min_val ∧ max_val ≤ 32767 then "SMALLINT".data
  else if -2147483648 ≤ min_val ∧ max_val ≤ 2147483647 then "INT".data
  else "BIGINT".data

/-- The tier chain on profile bounds.  A `none` bound is the pandas
NaN of an empty column: every comparison against NaN is false in
Python, so each check fails and the `else` gives BIGINT. -/
def numericTier : Option ℚ → Option ℚ → PyStr
  | some min_val, some max_val => numericTierVals min_val max_val
  | _, _ => "BIGINT".data

/-- Lines 188-200: SQL type of one column profile (`max_length + 5`
buffer, `VARCHAR` up to 255 else `TEXT`; the tier chain for numeric
profiles).  A `none` max-length is NaN: `NaN + 5 ≤ 255` is false in
Python, giving `TEXT`. -/
def sqlTypeFor : ColLimit → PyStr
  | .str (some max_length) =>
    if max_length + 5 ≤ 255 then
      "VARCHAR(".data ++ (Nat.repr (max_length + 5)).data ++ ")".data
    else "TEXT".data
  | .str none => "TEXT".data
  | .numeric mn mx => numericTier mn mx

/-- Position of a tier name in the ordering
TINYINT < SMALLINT < INT < BIGINT. -/
def tierRank (t : PyStr) : Nat :=
  if t = "TINYINT".data then 0
  else if t = "SMALLINT".data then 1
  else if t = "INT".data then 2
  else 3

theorem tierRank_numericTier (a b : ℚ) :
    tierRank (numericTier (some a) (some b))
      = (if -128 ≤ a ∧ b ≤ 127 then 0 else 1)
        + (if -32768 ≤ a ∧ b ≤ 32767 then 0 else 1)
        + (if -2147483648 ≤ a ∧ b ≤ 2147483647 then 0 else 1) := by
  show tierRank (numericTierVals a b) = _
  by_cases h1 : -128 ≤ a ∧ b ≤ 127
  · have h2 : -32768 ≤ a ∧ b ≤ 32767 := ⟨by linarith [h1.1], by linarith [h1.2]⟩
    have h3 : -2147483648 ≤ a ∧ b ≤ 2147483647 :=
      ⟨by linarith [h1.1], by linarith [h1.2]⟩
    rw [numericTierVals, if_pos h1, if_pos h1, if_pos h2, if_pos h3]
    decide
  · by_cases h2 : -32768 ≤ a ∧ b ≤ 32767
    · have h3 : -2147483648 ≤ a ∧ b ≤ 2147483647 :=
        ⟨by linarith [h2.1], by linarith [h2.2]⟩
      rw [numericTierVals, if_neg h1, if_pos h2, if_neg h1, if_pos h2, if_pos h3]
      decide
    · by_cases h3 : -2147483648 ≤ a ∧ b ≤ 2147483647
      · rw [numericTierVals, if_neg h1, if_neg h2, if_pos h3, if_neg h1, if_neg h2,
          if_pos h3]
        decide
      · rw [numericTierVals, if_neg h1, if_neg h2, if_neg h3, if_neg h1, if_neg h2,
          if_neg h3]
        decide

theorem indicator_le {P Q : Prop} [Decidable P] [Decidable Q] (h : Q → P) :
    (if P then (0 : Nat) else 1) ≤ if Q then 0 else 1 := by
  by_cases hq : Q
  · rw [if_pos hq, if_pos (h hq)]
  · rw [if_neg hq]
    split_ifs <;> omega

/-- C4: the integer-tier derivation uses the closed boundary checks of
the source (`[-128,127] → TINYINT`, else `[-32768,32767] → SMALLINT`,
else `[-2147483648,2147483647] → INT`, else `BIGINT`), and it is
monotone: a range contained in another derives a tier that is at most
the other's in the order TINYINT < SMALLINT < INT < BIGINT. -/
theorem numeric_tier_spec (mn mx mn' mx' : ℚ)
    (hmin : mn' ≤ mn) (hmax : mx ≤ mx') :
    ((-128 ≤ mn ∧ mx ≤ 127) →
        numericTier (some mn) (some mx) = "TINYINT".data) ∧
    (¬(-128 ≤ mn ∧ mx ≤ 127) → (-32768 ≤ mn ∧ mx ≤ 32767) →
        numericTier (some mn) (some mx) = "SMALLINT".data) ∧
    (¬(-32768 ≤ mn ∧ mx ≤ 32767) → (-2147483648 ≤ mn ∧ mx ≤ 2147483647) →
        numericTier (some mn) (some mx) = "INT".data) ∧
    (¬(-2147483648 ≤ mn ∧ mx ≤ 2147483647) →
        numericTier (some mn) (some mx) = "BIGINT".data) ∧
    tierRank (numericTier (some mn) (some mx))
      ≤ tierRank (numericTier (some mn') (some mx')) := by
  refine ⟨?_, ?_, ?_, ?_, ?_⟩
  · intro h1
    show numericTierVals mn mx = _
    rw [numericTierVals, if_pos h1]
  · intro h1 h2
    show numericTierVals mn mx = _
    rw [numericTierVals, if_neg h1, if_pos h2]
  · intro h2 h3
    have h1 : ¬(-128 ≤ mn ∧ mx ≤ 127) := by
      intro hc
      exact h2 ⟨by linarith [hc.1], by linarith [hc.2]⟩
    show numericTierVals mn mx = _
    rw [numericTierVals, if_neg h1, if_neg h2, if_pos h3]
  · intro h3
    have h2 : ¬(-32768 ≤ mn ∧ mx ≤ 32767) := by
      intro hc
      exact h3 ⟨by linarith [hc.1], by linarith [hc.2]⟩
    have h1 : ¬(-128 ≤ mn ∧ mx ≤ 127) := by
      intro hc
      exact h2 ⟨by linarith [hc.1], by linarith [hc.2]⟩
    show numericTierVals mn mx = _
    rw [numericTierVals, if_neg h1, if_neg h2, if_neg h3]
  · rw [tierRank_numericTier, tierRank_numericTier]
    refine Nat.add_le_add (Nat.add_le_add ?_ ?_) ?_ <;>
      exact indicator_le
        (fun hq => ⟨le_trans hq.1 hmin, le_trans hmax hq.2⟩)

/-- Witness for C4 at `[0,1] ⊆ [-1000, 40000]` (TINYINT vs INT). -/
theorem numeric_tier_spec_witness :
    (-1000 : ℚ) ≤ 0 ∧ (1 : ℚ) ≤ 40000 ∧
      (((-128 ≤ (0 : ℚ) ∧ (1 : ℚ) ≤ 127) →
          numericTier (some 0) (some 1) = "TINYINT".data) ∧
        (¬(-128 ≤ (0 : ℚ) ∧ (1 : ℚ) ≤ 127) →
            (-32768 ≤ (0 : ℚ) ∧ (1 : ℚ) ≤ 32767) →
            numericTier (some 0) (some 1) = "SMALLINT".data) ∧
        (¬(-32768 ≤ (0 : ℚ) ∧ (1 : ℚ) ≤ 32767) →
            (-2147483648 ≤ (0 : ℚ) ∧ (1 : ℚ) ≤ 2147483647) →
            numericTier (some 0) (some 1) = "INT".data) ∧
        (¬(-2147483648 ≤ (0 : ℚ) ∧ (1 : ℚ) ≤ 2147483647) →
            numericTier (some 0) (some 1) = "BIGINT".data) ∧
        tierRank (numericTier (some 0) (some 1))
          ≤ tierRank (numericTier (some (-1000)) (some 40000))) :=
  ⟨by norm_num, by norm_num,
    numeric_tier_spec 0 1 (-1000) 40000 (by norm_num) (by norm_num)⟩

/-- C5: evaluation of the code at the failing input.  A floating-point
feature column (`Energy`, observed values 0.461 and 0.997) is profiled
as numeric, and the materialization derives the integer tier TINYINT
for it — the boundary chain applies to any numeric column, floats
included, so the spec requirement that float columns never get an
integer tier is violated by the source. -/
theorem float_column_coerced_to_tinyint :
    analyse_column_limits
        [⟨"Energy".data, .float64,
          [Cell.num (461 / 1000), Cell.num (997 / 1000)]⟩]
      = [("Energy".data,
          .numeric (some (461 / 1000)) (some (997 / 1000)))] ∧
    sqlTypeFor (ColLimit.numeric (some (461 / 1000)) (some (997 / 1000)))
      = "TINYINT".data := by
  have hmin : colMin [Cell.num (461 / 1000), Cell.num (997 / 1000)]
      = some (461 / 1000) := by
    show ([461 / 1000, 997 / 1000] : List ℚ).min? = some (461 / 1000)
    rw [List.min?_cons]
    norm_num [min_def]
  have hmax : colMax [Cell.num (461 / 1000), Cell.num (997 / 1000)]
      = some (997 / 1000) := by
    show ([461 / 1000, 997 / 1000] : List ℚ).max? = some (997 / 1000)
    rw [List.max?_cons]
    norm_num [max_def]
  constructor
  · simp [analyse_column_limits, is_numeric_dtype, hmin, hmax]
  · show numericTierVals (461 / 1000) (997 / 1000) = _
    rw [numericTierVals, if_pos (by norm_num)]

/-- The `foreign_key` dict argument of `create_table`:
a dict with keys `column`, `table` and `reference_column`. -/
structure ForeignKey where
  column : PyStr
  table : PyStr
  reference_column : PyStr
deriving DecidableEq

/-- Line 177: `f"CREATE TABLE IF NOT EXISTS {table_name} ("`. -/
def headerLine (table_name : PyStr) : PyStr :=
  "CREATE TABLE IF NOT EXISTS ".data ++ table_name ++ " (".data

/-- Line 180: the fixed primary-key part. -/
def trackIdLine : PyStr := "    Track_ID VARCHAR(50) PRIMARY KEY,".data

/-- Line 201: `f"    {col} {sql_type},"`. -/
def colLine (col : PyStr) (limits : ColLimit) : PyStr :=
  "    ".data ++ col ++ " ".data ++ sqlTypeFor limits ++ ",".data

/-- Lines 207-209: the foreign-key clause. -/
def fkLine (fk : ForeignKey) : PyStr :=
  "    FOREIGN KEY (".data ++ fk.column ++ ") REFERENCES ".data
    ++ fk.table ++ "(".data ++ fk.reference_column ++ ")".data

/-- Python `s.rstrip(",")`. -/
def rstripComma (s : PyStr) : PyStr :=
  (s.reverse.dropWhile (fun c => c == ',')).reverse

/-- Mutation `sql_parts[-1] = f(sql_parts[-1])` of the parts list. -/
def modifyLast (f : PyStr → PyStr) : List PyStr → List PyStr
  | [] => []
  | [a] => [f a]
  | a :: b :: rest => a :: modifyLast f (b :: rest)

/-- The `sql_parts` list as `create_table` builds it: header, the
fixed `Track_ID` primary-key part, one comma-terminated part per
non-`Track_ID` profile in mapping order, then either the trailing
comma stripped from the last part (no foreign key) or the appended
foreign-key clause, and the closing `");"`. -/
def sqlParts (table_name : PyStr) (col_limit : List (PyStr × ColLimit))
    (foreign_key : Option ForeignKey) : List PyStr :=
  let base := headerLine table_name :: trackIdLine ::
    (col_limit.filter (fun p => p.1 != "Track_ID".data)).map
      (fun p => colLine p.1 p.2)
  match foreign_key with
  | none => modifyLast rstripComma base ++ [");".data]
  | some fk => base ++ [fkLine fk, ");".data]

/-- Definition `create_table` from my_functions_02.py: the parts joined
with newlines. -/
def create_table (table_name : PyStr) (col_limit : List (PyStr × ColLimit))
    (foreign_key : Option ForeignKey) : PyStr :=
  List.intercalate ['\n'] (sqlParts table_name col_limit foreign_key)

/-- One column clause as §4.4 of the spec words it: name, space,
derived type. -/
def clauseFor (p : PyStr × ColLimit) : PyStr :=
  p.1 ++ " ".data ++ sqlTypeFor p.2

/-- The DDL statement as the spec describes it (`buildCreateTable`):
`Track_ID VARCHAR(50) PRIMARY KEY` first, one clause per remaining
profile in mapping order, the optional foreign-key clause last, the
clauses joined by `",\n"` directly — so the last clause never carries
a trailing separator by construction. -/
def createTableSpecced (table_name : PyStr)
    (col_limit : List (PyStr × ColLimit))
    (foreign_key : Option ForeignKey) : PyStr :=
  let colClauses := "Track_ID VARCHAR(50) PRIMARY KEY".data ::
    (col_limit.filter (fun p => p.1 != "Track_ID".data)).map clauseFor
  let clauses := colClauses ++
    (match foreign_key with
     | none => []
     | some fk => ["FOREIGN KEY (".data ++ fk.column ++ ") REFERENCES ".data
         ++ fk.table ++ "(".data ++ fk.reference_column ++ ")".data])
  headerLine table_name ++ ['\n']
    ++ List.intercalate [',', '\n'] (clauses.map (fun c => "    ".data ++ c))
    ++ ['\n'] ++ ");".data

theorem intercalate_cons_ne_nil (sep a : PyStr) (l : List PyStr) (h : l ≠ []) :
    List.intercalate sep (a :: l) = a ++ sep ++ List.intercalate sep l := by
  cases l with
  | nil => exact absurd rfl h
  | cons b t => simp [List.intercalate, List.intersperse]

theorem modifyLast_cons (f : PyStr → PyStr) (a : PyStr) (l : List PyStr)
    (h : l ≠ []) : modifyLast f (a :: l) = a :: modifyLast f l := by
  cases l with
  | nil => exact absurd rfl h
  | cons b t => rfl

theorem rstripComma_append (x : PyStr) (h : x.getLast? ≠ some ',') :
    rstripComma (x ++ [',']) = x := by
  unfold rstripComma
  rw [List.reverse_append, List.reverse_singleton, List.singleton_append,
    List.dropWhile_cons]
  rw [if_pos (show (',' == ',') = true from rfl)]
  cases hx : x.reverse with
  | nil =>
    have hx' : x = [] := by
      rw [← List.reverse_reverse x, hx]
      rfl
    rw [hx']
    rfl
  | cons c cs =>
    have hgl : x.getLast? = some c := by
      rw [List.getLast?_eq_head?_reverse, hx]
      rfl
    have hc : (c == ',') = false := by
      cases hcc : (c == ',') with
      | false => rfl
      | true =>
        exfalso
        apply h
        rw [hgl, beq_iff_eq.mp hcc]
    rw [List.dropWhile_cons, if_neg (by simp [hc]), ← hx,
      List.reverse_reverse]

theorem numericTier_none_left (mx : Option ℚ) :
    numericTier none mx = "BIGINT".data := by
  cases mx <;> rfl

theorem numericTier_none_right (a : ℚ) :
    numericTier (some a) none = "BIGINT".data := rfl

theorem sqlTypeFor_last (l : ColLimit) :
    sqlTypeFor l ≠ [] ∧ (sqlTypeFor l).getLast? ≠ some ',' := by
  cases l with
  | str m =>
    cases m with
    | none => exact ⟨by decide, by decide⟩
    | some len =>
      rw [sqlTypeFor]
      split_ifs with hlen
      · constructor
        · simp
        · rw [List.getLast?_append_of_ne_nil _ (show ")".data ≠ [] by decide)]
          decide
      · exact ⟨by decide, by decide⟩
  | numeric mn mx =>
    cases mn with
    | none =>
      rw [show sqlTypeFor (ColLimit.numeric none mx) = numericTier none mx
        from rfl, numericTier_none_left]
      exact ⟨by decide, by decide⟩
    | some a =>
      cases mx with
      | none =>
        rw [show sqlTypeFor (ColLimit.numeric (some a) none)
            = numericTier (some a) none from rfl, numericTier_none_right]
        exact ⟨by decide, by decide⟩
      | some b =>
        show numericTierVals a b ≠ [] ∧ (numericTierVals a b).getLast? ≠ some ','
        rw [numericTierVals]
        split_ifs <;> exact ⟨by decide, by decide⟩

theorem join_strip_last (close : PyStr) :
    ∀ (A : List PyStr), A ≠ [] → (∀ x ∈ A, x.getLast? ≠ some ',') →
      List.intercalate ['\n']
          (modifyLast rstripComma (A.map (fun x => x ++ [','])) ++ [close])
        = List.intercalate [',', '\n'] A ++ ['\n'] ++ close := by
  intro A
  induction A with
  | nil =>
    intro h _
    exact absurd rfl h
  | cons a A ih =>
    intro _ hlast
    cases A with
    | nil =>
      simp only [List.map_cons, List.map_nil]
      rw [show modifyLast rstripComma [a ++ [',']]
          = [rstripComma (a ++ [','])] from rfl,
        rstripComma_append a (hlast a (List.mem_cons_self _ _))]
      rw [List.singleton_append, intercalate_cons_ne_nil _ _ _
        (List.cons_ne_nil _ _)]
      simp [List.intercalate]
    | cons b B =>
      have ih' := ih (List.cons_ne_nil _ _)
        (fun x hx => hlast x (List.mem_cons_of_mem _ hx))
      simp only [List.map_cons] at ih'
      simp only [List.map_cons]
      rw [modifyLast_cons _ _ _ (List.cons_ne_nil _ _), List.cons_append,
        intercalate_cons_ne_nil _ _ _ (by simp), ih',
        intercalate_cons_ne_nil [',', '\n'] a (b :: B) (List.cons_ne_nil _ _)]
      simp [List.append_assoc]

theorem join_with_tail (close y : PyStr) :
    ∀ (A : List PyStr), A ≠ [] →
      List.intercalate ['\n'] (A.map (fun x => x ++ [',']) ++ [y, close])
        = List.intercalate [',', '\n'] (A ++ [y]) ++ ['\n'] ++ close := by
  intro A
  induction A with
  | nil =>
    intro h
    exact absurd rfl h
  | cons a A ih =>
    intro _
    cases A with
    | nil =>
      simp only [List.map_cons, List.map_nil, List.nil_append,
        List.cons_append]
      rw [intercalate_cons_ne_nil _ _ _ (List.cons_ne_nil _ _),
        intercalate_cons_ne_nil _ _ _ (List.cons_ne_nil _ _),
        intercalate_cons_ne_nil [',', '\n'] a [y] (List.cons_ne_nil _ _)]
      simp [List.intercalate, List.append_assoc]
    | cons b B =>
      have ih' := ih (List.cons_ne_nil _ _)
      simp only [List.map_cons, List.cons_append] at ih'
      simp only [List.map_cons, List.cons_append]
      rw [intercalate_cons_ne_nil _ _ _ (by simp), ih',
        intercalate_cons_ne_nil [',', '\n'] a (b :: (B ++ [y]))
          (List.cons_ne_nil _ _)]
      simp [List.append_assoc]

theorem create_table_eq_specced (t : PyStr) (cols : List (PyStr × ColLimit))
    (fk : Option ForeignKey) :
    create_table t cols fk = createTableSpecced t cols fk := by
  have hlastA : ∀ x ∈ (("    ".data ++ "Track_ID VARCHAR(50) PRIMARY KEY".data) ::
      (cols.filter (fun p => p.1 != "Track_ID".data)).map
        (fun p => "    ".data ++ clauseFor p)), x.getLast? ≠ some ',' := by
    intro x hx
    rcases List.mem_cons.mp hx with rfl | hx
    · decide
    · rcases List.mem_map.mp hx with ⟨p, _, rfl⟩
      have hcne : clauseFor p ≠ [] := by simp [clauseFor]
      rw [List.getLast?_append_of_ne_nil _ hcne, clauseFor,
        List.getLast?_append_of_ne_nil _ (sqlTypeFor_last p.2).1]
      exact (sqlTypeFor_last p.2).2
  have hhead : trackIdLine
      = ("    ".data ++ "Track_ID VARCHAR(50) PRIMARY KEY".data) ++ [','] := by
    decide
  have htail : (cols.filter (fun p => p.1 != "Track_ID".data)).map
        (fun p => colLine p.1 p.2)
      = ((cols.filter (fun p => p.1 != "Track_ID".data)).map
          (fun p => "    ".data ++ clauseFor p)).map (fun x => x ++ [',']) := by
    rw [List.map_map]
    apply List.map_congr_left
    intro p _
    simp [colLine, clauseFor, List.append_assoc, Function.comp_def]
  have hmapEq : trackIdLine ::
      (cols.filter (fun p => p.1 != "Track_ID".data)).map
        (fun p => colLine p.1 p.2)
      = (("    ".data ++ "Track_ID VARCHAR(50) PRIMARY KEY".data) ::
        (cols.filter (fun p => p.1 != "Track_ID".data)).map
          (fun p => "    ".data ++ clauseFor p)).map (fun x => x ++ [',']) := by
    rw [List.map_cons, ← hhead, ← htail]
  cases fk with
  | none =>
    have hL : create_table t cols none
        = List.intercalate ['\n'] (modifyLast rstripComma
            (headerLine t :: trackIdLine ::
              (cols.filter (fun p => p.1 != "Track_ID".data)).map
                (fun p => colLine p.1 p.2)) ++ [");".data]) := rfl
    rw [hL, hmapEq, modifyLast_cons _ _ _ (by simp),
      List.cons_append, intercalate_cons_ne_nil _ _ _ (by simp),
      join_strip_last ");".data _ (List.cons_ne_nil _ _) hlastA,
      createTableSpecced]
    simp [List.map_map, Function.comp_def, List.append_assoc]
  | some f =>
    have hL : create_table t cols (some f)
        = List.intercalate ['\n'] ((headerLine t :: trackIdLine ::
            (cols.filter (fun p => p.1 != "Track_ID".data)).map
              (fun p => colLine p.1 p.2)) ++ [fkLine f, ");".data]) := rfl
    have hfk : fkLine f = "    ".data ++ ("FOREIGN KEY (".data ++ f.column
        ++ ") REFERENCES ".data ++ f.table ++ "(".data
        ++ f.reference_column ++ ")".data) := by
      rw [fkLine, show "    FOREIGN KEY (".data
        = "    ".data ++ "FOREIGN KEY (".data from by decide]
      simp [List.append_assoc]
    rw [hL, hmapEq, List.cons_append,
      intercalate_cons_ne_nil _ _ _ (by simp),
      join_with_tail ");".data (fkLine f) _ (List.cons_ne_nil _ _),
      createTableSpecced]
    simp [List.map_append, List.map_map, Function.comp_def, List.append_assoc,
      hfk]

/-- C3: for every table name, column-profile mapping and optional
foreign key, the statement `create_table` builds is exactly the one
the spec describes — `Track_ID VARCHAR(50) PRIMARY KEY` first,
followed by one clause per remaining profile in mapping order using
the derived type, the foreign-key clause appended when supplied, and
clauses joined by `",\n"` so that without a foreign key the last
column clause carries no trailing comma.  Any profile recorded for
`Track_ID` itself is ignored.  In particular, the profiles
`{Track_ID: string(22), Popularity: numeric(0,100)}` yield the
statement with `Track_ID VARCHAR(50) PRIMARY KEY` and
`Popularity TINYINT`. -/
theorem create_table_spec :
    (∀ (t : PyStr) (cols : List (PyStr × ColLimit)) (fk : Option ForeignKey),
        create_table t cols fk = createTableSpecced t cols fk) ∧
    (∀ (t : PyStr) (cols : List (PyStr × ColLimit)) (fk : Option ForeignKey),
        create_table t cols fk
          = create_table t (cols.filter (fun p => p.1 != "Track_ID".data)) fk) ∧
    create_table "features".data
        [("Track_ID".data, ColLimit.str (some 22)),
         ("Popularity".data, ColLimit.numeric (some 0) (some 100))] none
      = "CREATE TABLE IF NOT EXISTS features (\n    Track_ID VARCHAR(50) PRIMARY KEY,\n    Popularity TINYINT\n);".data := by
  refine ⟨create_table_eq_specced, ?_, ?_⟩
  · intro t cols fk
    rw [create_table_eq_specced, create_table_eq_specced]
    simp only [createTableSpecced, List.filter_filter]
    simp
  · decide
